import Mathlib

/-!
Verification of the meme demotivator generator (src/main.go).

A shallow embedding of the Go package `meme`.  Pure layout arithmetic is
translated directly; Go `float64` values are modelled by exact rationals
(every constant in the source — 1.5, 0.8, 1.2, 0.5, 2.0, 48, 800 — is a
short decimal, and the spec's formulas are stated over exact arithmetic);
Go `int` is modelled by `ℤ`, with `int(x)` float-to-int conversion as
truncation toward zero.  The external collaborators (filesystem, the
`opentype` parser, face construction and glyph measurement from
`golang.org/x/image`) are parameters of the model, gathered in `Ext`.
The output `*image.RGBA` is modelled as the exact sequence of drawing
commands Generate issues (dimensions, background fill, border rectangles,
image blit, text render passes): the rasteriser is deterministic, so two
equal command sequences denote bit-identical pixel buffers.
-/

namespace Meme

/-- A color.RGBA value (the package only ever constructs RGBA colors). -/
structure Color where
  r : ℕ
  g : ℕ
  b : ℕ
  a : ℕ
deriving DecidableEq, Repr

/-- A decoded source image (`image.Image`): its bounds' minimum corner,
its `Dx`/`Dy` dimensions, and an opaque token standing for its pixel
content. -/
structure GoImage where
  minX : ℤ
  minY : ℤ
  width : ℕ
  height : ℕ
  content : ℕ
deriving DecidableEq, Repr

/-- The `Config` struct of src/main.go. `FontSize` is the `float64`
field, modelled as `ℚ`; `FontData` is the raw byte slice. -/
structure Config where
  TopText : String
  BottomText : String
  FontSize : ℚ
  FontPath : String
  FontData : List ℕ
  Padding : ℤ
  Border : ℤ
  BackgroundColor : Color
  BorderColor : Color
  TextColor : Color
  TextOutlineColor : Color
  TextOutlineWidth : ℤ
  TextUppercase : Bool
  AutoFontSize : Bool
deriving DecidableEq, Repr

/-- The `DefaultConfig` function of src/main.go; the string and slice fields keep
Go's zero values. -/
def DefaultConfig : Config :=
  { TopText := ""
    BottomText := ""
    FontSize := 48
    FontPath := ""
    FontData := []
    Padding := 80
    Border := 10
    BackgroundColor := ⟨0, 0, 0, 255⟩
    BorderColor := ⟨255, 255, 255, 255⟩
    TextColor := ⟨255, 255, 255, 255⟩
    TextOutlineColor := ⟨0, 0, 0, 255⟩
    TextOutlineWidth := 6
    TextUppercase := true
    AutoFontSize := true }

/-- A parsed `*opentype.Font`: an opaque handle identified by the bytes
it was parsed from. -/
structure ParsedFont where
  bytes : List ℕ
deriving DecidableEq, Repr

/-- A `font.Face`: a parsed font bound to a point size
(`opentype.NewFace` with DPI 72 and full hinting). -/
structure FontFace where
  font : ParsedFont
  size : ℚ
deriving DecidableEq, Repr

/-- The error kinds the font-loading path of src/main.go produces. -/
inductive FontError where
  | fileMissing (path : String)
  | fileEmpty
  | fileTooLarge (size : ℤ)
  | fileTooSmall
  | parseFail
  | faceFail
deriving DecidableEq, Repr

/-- The error `Generate` returns: it wraps any font-loading failure
(`fmt.Errorf("не удалось загрузить шрифт: %w", err)`). -/
inductive GenError where
  | fontLoad (cause : FontError)
deriving DecidableEq, Repr

/-- The font cache `map[string]*opentype.Font`, as an association list
(most recent insertion first, matching map-overwrite semantics). -/
abbrev FontCache := List (String × ParsedFont)

/-- Map lookup `g.fontCache[key]`. -/
def cacheLookup : FontCache → String → Option ParsedFont
  | [], _ => none
  | (k', f) :: rest, k => if k' = k then some f else cacheLookup rest k

/-- Map assignment `g.fontCache[key] = font`. -/
def cacheInsert (c : FontCache) (k : String) (f : ParsedFont) : FontCache :=
  (k, f) :: c

/-- The `Generator` struct: a configuration and a font cache.  The
`sync.RWMutex` only orders concurrent accesses and has no sequential
behaviour, so it does not appear in the model. -/
structure Generator where
  config : Config
  fontCache : FontCache
deriving DecidableEq, Repr

/-- The `NewGenerator` constructor: a nil `*Config` (modelled by `none`) is replaced by
`DefaultConfig()`; the cache starts empty (`make(map[...])`). -/
def NewGenerator (config : Option Config) : Generator :=
  { config := match config with
      | none => DefaultConfig
      | some c => c
    fontCache := [] }

/-- The external collaborators of the package: the filesystem
(`os.Stat`/`os.ReadFile`, a path either resolves to a byte payload or is
missing), `opentype.Parse`, `opentype.NewFace` (which may fail), the
drawer's `MeasureString(...).Ceil()`, and the embedded `gobold.TTF`
payload. -/
structure Ext where
  fs : String → Option (List ℕ)
  parseFont : List ℕ → Option ParsedFont
  newFace : ParsedFont → ℚ → Option FontFace
  measureString : FontFace → String → ℤ
  goboldTTF : List ℕ

/-- The `toUpperSafe` helper, i.e. `strings.ToUpper` (modelled on the ASCII fragment,
which covers every string the spec mentions). -/
def toUpperSafe (s : String) : String :=
  String.mk (s.data.map Char.toUpper)

/-- Go's `int(x)` conversion of a `float64`: truncation toward zero. -/
def goTrunc (q : ℚ) : ℤ :=
  if q < 0 then -⌊-q⌋ else ⌊q⌋

/-- Go's integer division: T-division (truncation toward zero). -/
def goDiv (a b : ℤ) : ℤ := Int.tdiv a b

/-- An `image.Rectangle`, by its two corners. -/
structure Rect where
  x0 : ℤ
  y0 : ℤ
  x1 : ℤ
  y1 : ℤ
deriving DecidableEq, Repr

/-- The `image.Rect(x0, y0, x1, y1)` constructor: swaps coordinates so the rectangle is
well-formed. -/
def imageRect (x0 y0 x1 y1 : ℤ) : Rect :=
  let px := if x0 > x1 then (x1, x0) else (x0, x1)
  let py := if y0 > y1 then (y1, y0) else (y0, y1)
  ⟨px.1, py.1, px.2, py.2⟩

/-- Width `Rectangle.Dx()` of a rectangle. -/
def Rect.dx (r : Rect) : ℤ := r.x1 - r.x0

/-- Height `Rectangle.Dy()` of a rectangle. -/
def Rect.dy (r : Rect) : ℤ := r.y1 - r.y0

/-- The `loadFontFromFile` step: stat the path (missing file is an error), reject
an empty file, reject a file over 10 MiB, read it, reject fewer than 4
bytes; the TTF/OTF signature sniff in the source accepts every byte
string (its mismatch branch is empty), so it does not appear. -/
def loadFontFromFile (ext : Ext) (path : String) : Except FontError (List ℕ) :=
  match ext.fs path with
  | none => .error (.fileMissing path)
  | some data =>
    if data.length = 0 then .error .fileEmpty
    else if (data.length : ℤ) > 10 * 1024 * 1024 then .error (.fileTooLarge data.length)
    else if data.length < 4 then .error .fileTooSmall
    else .ok data

/-- The tail of `loadFont` shared by all three source branches: parse
the chosen bytes, cache the parsed font when `cfg.FontPath != ""`
(the condition the source checks, whatever branch chose the bytes),
then build the face. -/
def finishLoad (cfg : Config) (ext : Ext) (size : ℚ) (cache : FontCache)
    (fontBytes : List ℕ) (cacheKey : String) :
    Except FontError FontFace × FontCache :=
  match ext.parseFont fontBytes with
  | none => (.error .parseFail, cache)
  | some parsedFont =>
    let cache' := if cfg.FontPath ≠ "" then cacheInsert cache cacheKey parsedFont else cache
    match ext.newFace parsedFont size with
    | none => (.error .faceFail, cache')
    | some face => (.ok face, cache')

/-- The `loadFont` step: source selection (raw `FontData` first, then the file
path with the cache consulted, else the embedded `gobold` default),
returning the face, the cache after the call, and how many times
`loadFontFromFile` touched the disk (0 or 1). -/
def loadFont (cfg : Config) (ext : Ext) (cache : FontCache) (size : ℚ) :
    Except FontError FontFace × FontCache × ℕ :=
  if cfg.FontData ≠ [] then
    let rc := finishLoad cfg ext size cache cfg.FontData "embedded_font_data"
    (rc.1, rc.2, 0)
  else if cfg.FontPath ≠ "" then
    match cacheLookup cache cfg.FontPath with
    | some cachedFont =>
      (match ext.newFace cachedFont size with
        | none => .error .faceFail
        | some face => .ok face, cache, 0)
    | none =>
      match loadFontFromFile ext cfg.FontPath with
      | .error e => (.error e, cache, 1)
      | .ok fontBytes =>
        let rc := finishLoad cfg ext size cache fontBytes cfg.FontPath
        (rc.1, rc.2, 1)
  else
    let rc := finishLoad cfg ext size cache ext.goboldTTF "gobold_embedded"
    (rc.1, rc.2, 0)

/-- The top caption after the optional uppercase transform. -/
def topCaption (cfg : Config) : String :=
  if cfg.TextUppercase then toUpperSafe cfg.TopText else cfg.TopText

/-- The bottom caption after the optional uppercase transform. -/
def bottomCaption (cfg : Config) : String :=
  if cfg.TextUppercase then toUpperSafe cfg.BottomText else cfg.BottomText

/-- The font size `Generate` actually uses: when `AutoFontSize` is set,
`48 * (imgWidth/800`, clamped to `[0.5, 2.0])`, else `cfg.FontSize`. -/
def effectiveFontSize (cfg : Config) (imgWidth : ℕ) : ℚ :=
  if cfg.AutoFontSize then
    let baseSize : ℚ := 48
    let scaleFactor0 : ℚ := (imgWidth : ℚ) / 800
    let scaleFactor : ℚ :=
      if scaleFactor0 < 0.5 then 0.5
      else if scaleFactor0 > 2.0 then 2.0
      else scaleFactor0
    baseSize * scaleFactor
  else cfg.FontSize

/-- One `DrawString` pass: source color, dot position, string, face. -/
structure TextOp where
  color : Color
  x : ℤ
  y : ℤ
  text : String
  face : FontFace
deriving DecidableEq, Repr

/-- The composed `*image.RGBA`, as the sequence of drawing commands
`Generate` issues into it (see the module doc). -/
structure Canvas where
  width : ℤ
  height : ℤ
  background : Color
  borderColor : Color
  borderRects : List Rect
  imageSrc : GoImage
  blitRect : Rect
  textOps : List TextOp
deriving DecidableEq, Repr

/-- The integers from `a` to `b` inclusive, in order: the index sequence
of a Go `for i := a; i <= b; i++` loop. -/
def intRange (a b : ℤ) : List ℤ :=
  (List.range (b - a + 1).toNat).map (fun i : ℕ => a + (i : ℤ))

/-- The offset pairs of the outline double loop of `drawCenteredText`,
in loop order: `dx` outer from `-w` to `w`, `dy` inner from `-w` to `w`,
with the center `(0,0)` skipped by the `continue`. -/
def outlineOffsets (w : ℤ) : List (ℤ × ℤ) :=
  ((intRange (-w) w) ×ˢ (intRange (-w) w)).filter
    (fun p => !(p.1 == 0 && p.2 == 0))

/-- The `drawCenteredText` renderer: measure the string, center it horizontally on
the canvas, render one outline pass per offset pair when the outline
width is positive, then render the fill pass at the centered origin. -/
def drawCenteredText (cfg : Config) (ext : Ext) (canvasWidth : ℤ)
    (face : FontFace) (text : String) (y : ℤ) : List TextOp :=
  if text = "" then []
  else
    let textWidth := ext.measureString face text
    let x := goDiv (canvasWidth - textWidth) 2
    let outline :=
      if cfg.TextOutlineWidth > 0 then
        (outlineOffsets cfg.TextOutlineWidth).map (fun p =>
          { color := cfg.TextOutlineColor, x := x + p.1, y := y + p.2
            text := text, face := face })
      else []
    outline ++ [{ color := cfg.TextColor, x := x, y := y, text := text, face := face }]

/-- The canvas `Generate` composes once the face is loaded: the command
sequence of its success path (dimensions, background fill, the `Border`
nested border rectangles, the image blit at the padded offset, then the
top and bottom caption render passes with the advancing baseline). -/
def composeCanvas (cfg : Config) (img : GoImage) (ext : Ext)
    (fontFace : FontFace) : Canvas :=
  let imgWidth : ℤ := img.width
  let imgHeight : ℤ := img.height
  let fontSize := effectiveFontSize cfg img.width
  let textHeight : ℤ :=
    (if topCaption cfg ≠ "" then goTrunc (fontSize * 1.5) else 0) +
    (if bottomCaption cfg ≠ "" then goTrunc (fontSize * 1.5) else 0)
  let resultWidth := imgWidth + cfg.Padding * 2
  let resultHeight := imgHeight + cfg.Padding * 2 + textHeight
  let outRect := imageRect 0 0 resultWidth resultHeight
  let borderRects :=
    (List.range cfg.Border.toNat).map (fun i : ℕ =>
      imageRect (cfg.Padding - cfg.Border + (i : ℤ)) (cfg.Padding - cfg.Border + (i : ℤ))
        (cfg.Padding + imgWidth + cfg.Border - (i : ℤ))
        (cfg.Padding + imgHeight + cfg.Border - (i : ℤ)))
  let currentY := cfg.Padding + imgHeight + goTrunc (fontSize * 0.8)
  let topOps :=
    if topCaption cfg ≠ "" then
      drawCenteredText cfg ext outRect.dx fontFace (topCaption cfg) currentY
    else []
  let currentY2 :=
    if topCaption cfg ≠ "" then currentY + goTrunc (fontSize * 1.2) else currentY
  let bottomOps :=
    if bottomCaption cfg ≠ "" then
      drawCenteredText cfg ext outRect.dx fontFace (bottomCaption cfg) currentY2
    else []
  { width := outRect.dx
    height := outRect.dy
    background := cfg.BackgroundColor
    borderColor := cfg.BorderColor
    borderRects := borderRects
    imageSrc := img
    blitRect := imageRect cfg.Padding cfg.Padding (cfg.Padding + imgWidth) (cfg.Padding + imgHeight)
    textOps := topOps ++ bottomOps }

/-- The `Generate` method: uppercase the captions if configured, load the font at
the effective size, and either propagate the wrapped error (the Go code
returns `nil` for the image) or return the composed canvas; also returns
the cache after the call and the number of disk reads it performed. -/
def Generate (g : Generator) (img : GoImage) (ext : Ext) :
    Except GenError Canvas × FontCache × ℕ :=
  let cfg := g.config
  match loadFont cfg ext g.fontCache (effectiveFontSize cfg img.width) with
  | (.error e, cache', reads) => (.error (.fontLoad e), cache', reads)
  | (.ok fontFace, cache', reads) =>
    (.ok (composeCanvas cfg img ext fontFace), cache', reads)

/-- The `PreloadFont` method: read and parse the file, inserting the parsed font
into the cache under the path. -/
def PreloadFont (g : Generator) (ext : Ext) (path : String) :
    Except FontError Unit × FontCache :=
  match loadFontFromFile ext path with
  | .error e => (.error e, g.fontCache)
  | .ok data =>
    match ext.parseFont data with
    | none => (.error .parseFail, g.fontCache)
    | some parsedFont => (.ok (), cacheInsert g.fontCache path parsedFont)

/-- The `ClearFontCache` method: replace the cache by a fresh empty map. -/
def ClearFontCache (g : Generator) : Generator :=
  { g with fontCache := [] }

/-- The `LoadFontFile` method: read the file and install its bytes as `FontData`,
recording the path in `FontPath` as well. -/
def LoadFontFile (g : Generator) (ext : Ext) (path : String) :
    Except FontError Generator :=
  match loadFontFromFile ext path with
  | .error e => .error e
  | .ok data =>
    .ok { g with config := { g.config with FontData := data, FontPath := path } }

/-- Runs `n` consecutive `Generate` calls on the same generator (the Go
method mutates the receiver's cache; the model threads it), collecting
each call's result, the final cache, and the total disk reads. -/
def generateRuns : ℕ → Config → GoImage → Ext → FontCache →
    List (Except GenError Canvas) × FontCache × ℕ
  | 0, _, _, _, cache => ([], cache, 0)
  | n + 1, cfg, img, ext, cache =>
    let step := Generate ⟨cfg, cache⟩ img ext
    let rest := generateRuns n cfg img ext step.2.1
    (step.1 :: rest.1, rest.2.1, step.2.2 + rest.2.2)

/-- The spec's clamp, by its words: `q` clamped to the interval
`[lo, hi]`. -/
def specClamp (q lo hi : ℚ) : ℚ := max lo (min hi q)

/-! ## Concrete fixtures used to exercise the theorems -/

/-- A 100×50 source image with bounds anchored at the origin. -/
def imgW : GoImage := ⟨0, 0, 100, 50, 7⟩

/-- A well-formed TrueType header (the four signature bytes). -/
def fontBytesW : List ℕ := [0, 1, 0, 0]

/-- The font `fontBytesW` parses to under `extW`. -/
def fW : ParsedFont := ⟨fontBytesW⟩

/-- The gobold payload under `extW`, and the font it parses to. -/
def goboldBytesW : List ℕ := [9, 9, 9, 9]

/-- The parsed embedded-default font under `extW`. -/
def goboldFW : ParsedFont := ⟨goboldBytesW⟩

/-- A concrete collaborator environment: a filesystem with one valid
font file and one zero-byte file, a parser that accepts exactly the
non-empty byte strings, face construction that always succeeds, and a
measurer returning ten pixels per character. -/
def extW : Ext :=
  { fs := fun p =>
      if p = "f.ttf" then some fontBytesW
      else if p = "empty.ttf" then some [] else none
    parseFont := fun bs => if bs = [] then none else some ⟨bs⟩
    newFace := fun f s => some ⟨f, s⟩
    measureString := fun _ t => (t.length : ℤ) * 10
    goboldTTF := goboldBytesW }

/-- Fixed-size configuration with a top caption only (embedded-default
font source). -/
def cfgW1 : Config := { DefaultConfig with TopText := "A", AutoFontSize := false }

/-- Fixed-size configuration with both captions empty. -/
def cfgW2 : Config := { DefaultConfig with AutoFontSize := false }

/-- The face the embedded-default branch of `loadFont` produces for
`cfgW1`/`cfgW2` under `extW` at size 48. -/
def goboldFaceW : FontFace := ⟨goboldFW, 48⟩

/-- A configuration carrying raw font bytes *and* a font path at once
(the state `LoadFontFile` leaves behind). -/
def cfgW6 : Config :=
  { DefaultConfig with AutoFontSize := false, FontData := fontBytesW, FontPath := "f.ttf" }

/-- File-path font source, fixed size. -/
def cfgW7 : Config := { DefaultConfig with AutoFontSize := false, FontPath := "f.ttf" }

/-- The face the file branch produces for `cfgW7` under `extW`. -/
def faceW7 : FontFace := ⟨fW, 48⟩

/-- File-path font source naming the zero-byte file. -/
def cfgW8 : Config := { DefaultConfig with AutoFontSize := false, FontPath := "empty.ttf" }

/-- Lower-case caption, for the uppercase-transform claim. -/
def cfgW9 : Config := { DefaultConfig with TopText := "hello", AutoFontSize := false }

/-- Uppercase transform disabled, lower-case caption kept. -/
def cfgW9b : Config :=
  { DefaultConfig with TopText := "hello", TextUppercase := false, AutoFontSize := false }

/-- An environment whose parser rejects every byte string (as
`opentype.Parse` does on garbage bytes that pass the size checks). -/
def extBadParse : Ext :=
  { fs := fun p => if p = "f.ttf" then some fontBytesW else none
    parseFont := fun _ => none
    newFace := fun f s => some ⟨f, s⟩
    measureString := fun _ t => (t.length : ℤ) * 10
    goboldTTF := goboldBytesW }

/-! ## Helper lemmas -/

theorem toUpperSafe_eq_empty_iff (s : String) : toUpperSafe s = "" ↔ s = "" := by
  cases s with
  | mk data =>
    simp [toUpperSafe, String.ext_iff]

theorem topCaption_ne_empty_iff (cfg : Config) : topCaption cfg ≠ "" ↔ cfg.TopText ≠ "" := by
  unfold topCaption
  cases cfg.TextUppercase <;> simp [toUpperSafe_eq_empty_iff]

theorem bottomCaption_ne_empty_iff (cfg : Config) :
    bottomCaption cfg ≠ "" ↔ cfg.BottomText ≠ "" := by
  unfold bottomCaption
  cases cfg.TextUppercase <;> simp [toUpperSafe_eq_empty_iff]

theorem goTrunc_eq_floor {q : ℚ} (h : 0 ≤ q) : goTrunc q = ⌊q⌋ := by
  unfold goTrunc
  rw [if_neg (not_lt.mpr h)]

theorem goTrunc_nonneg {q : ℚ} (h : 0 ≤ q) : 0 ≤ goTrunc q := by
  rw [goTrunc_eq_floor h]
  exact Int.floor_nonneg.mpr h

theorem imageRect_dx {a b : ℤ} (ha : 0 ≤ a) : (imageRect 0 0 a b).dx = a := by
  unfold imageRect Rect.dx
  rw [if_neg (not_lt.mpr ha)]
  by_cases hb : 0 > b <;> simp [hb]

theorem imageRect_dy {a b : ℤ} (hb : 0 ≤ b) : (imageRect 0 0 a b).dy = b := by
  unfold imageRect Rect.dy
  rw [if_neg (not_lt.mpr hb)]
  by_cases ha : 0 > a <;> simp [ha]

theorem mem_intRange {a b x : ℤ} : x ∈ intRange a b ↔ a ≤ x ∧ x ≤ b := by
  unfold intRange
  simp only [List.mem_map, List.mem_range]
  constructor
  · rintro ⟨i, hi, rfl⟩
    omega
  · rintro ⟨h1, h2⟩
    exact ⟨(x - a).toNat, by omega, by omega⟩

theorem nodup_intRange (a b : ℤ) : (intRange a b).Nodup := by
  unfold intRange
  exact (List.nodup_range _).map (fun i j h => by omega)

theorem length_intRange (a b : ℤ) : (intRange a b).length = (b - a + 1).toNat := by
  unfold intRange
  rw [List.length_map, List.length_range]

/-- Shape of a successful `Generate` call. -/
theorem generate_ok_iff {cfg : Config} {cache : FontCache} {img : GoImage} {ext : Ext}
    {c : Canvas} :
    (Generate ⟨cfg, cache⟩ img ext).1 = .ok c ↔
      ∃ face cache' reads,
        loadFont cfg ext cache (effectiveFontSize cfg img.width) = (.ok face, cache', reads)
        ∧ c = composeCanvas cfg img ext face := by
  unfold Generate
  rcases h : loadFont cfg ext cache (effectiveFontSize cfg img.width) with ⟨r, cache', reads⟩
  cases r with
  | error e =>
    simp only [h]
    constructor
    · intro hc
      exact absurd hc (by simp)
    · rintro ⟨face, cc, k, hl, _⟩
      simp at hl
  | ok face =>
    simp only [h]
    constructor
    · intro hc
      refine ⟨face, cache', reads, rfl, ?_⟩
      simpa using hc.symm
    · rintro ⟨face', cc, k, hl, rfl⟩
      simp at hl
      rw [hl.1]

/-- The canvas width of a successful composition. -/
theorem composeCanvas_width (cfg : Config) (img : GoImage) (ext : Ext) (face : FontFace)
    (hpad : 0 ≤ cfg.Padding) :
    (composeCanvas cfg img ext face).width = (img.width : ℤ) + cfg.Padding * 2 := by
  rw [show (composeCanvas cfg img ext face).width
      = (imageRect 0 0 ((img.width : ℤ) + cfg.Padding * 2)
          ((img.height : ℤ) + cfg.Padding * 2 +
            ((if topCaption cfg ≠ "" then goTrunc (effectiveFontSize cfg img.width * 1.5) else 0) +
             (if bottomCaption cfg ≠ "" then goTrunc (effectiveFontSize cfg img.width * 1.5) else 0)))).dx
    from rfl]
  exact imageRect_dx (by positivity)

/-- The canvas height of a successful composition, with the caption
block terms still in source (`goTrunc`) form. -/
theorem composeCanvas_height (cfg : Config) (img : GoImage) (ext : Ext) (face : FontFace)
    (hpad : 0 ≤ cfg.Padding) (hF : 0 ≤ effectiveFontSize cfg img.width) :
    (composeCanvas cfg img ext face).height =
      (img.height : ℤ) + cfg.Padding * 2 +
        ((if topCaption cfg ≠ "" then goTrunc (effectiveFontSize cfg img.width * 1.5) else 0) +
         (if bottomCaption cfg ≠ "" then goTrunc (effectiveFontSize cfg img.width * 1.5) else 0)) := by
  have h15 : (0 : ℚ) ≤ effectiveFontSize cfg img.width * 1.5 := by
    have : (0 : ℚ) ≤ (1.5 : ℚ) := by norm_num
    exact mul_nonneg hF this
  have ht : (0 : ℤ) ≤ (if topCaption cfg ≠ "" then goTrunc (effectiveFontSize cfg img.width * 1.5) else 0) := by
    split
    · exact goTrunc_nonneg h15
    · exact le_refl 0
  have hb : (0 : ℤ) ≤ (if bottomCaption cfg ≠ "" then goTrunc (effectiveFontSize cfg img.width * 1.5) else 0) := by
    split
    · exact goTrunc_nonneg h15
    · exact le_refl 0
  rw [show (composeCanvas cfg img ext face).height
      = (imageRect 0 0 ((img.width : ℤ) + cfg.Padding * 2)
          ((img.height : ℤ) + cfg.Padding * 2 +
            ((if topCaption cfg ≠ "" then goTrunc (effectiveFontSize cfg img.width * 1.5) else 0) +
             (if bottomCaption cfg ≠ "" then goTrunc (effectiveFontSize cfg img.width * 1.5) else 0)))).dy
    from rfl]
  apply imageRect_dy
  have himg : (0 : ℤ) ≤ (img.height : ℤ) := Int.ofNat_nonneg _
  omega

/-- C1.  For a source image of height `H`, padding `P` and effective
font size `F ≥ 0`, a canvas returned by `Generate` has height
`H + 2·P` plus `⌊F × 1.5⌋` for each non-empty caption, the top and
bottom terms counted independently and summed when both captions are
non-empty. -/
theorem claim1_canvas_height (cfg : Config) (img : GoImage) (cache : FontCache) (ext : Ext)
    (c : Canvas)
    (hpad : 0 ≤ cfg.Padding)
    (hF : 0 ≤ effectiveFontSize cfg img.width)
    (hgen : (Generate ⟨cfg, cache⟩ img ext).1 = .ok c) :
    c.height = (img.height : ℤ) + 2 * cfg.Padding
      + (if cfg.TopText ≠ "" then ⌊effectiveFontSize cfg img.width * 1.5⌋ else 0)
      + (if cfg.BottomText ≠ "" then ⌊effectiveFontSize cfg img.width * 1.5⌋ else 0) := by
  obtain ⟨face, cc, k, hl, rfl⟩ := generate_ok_iff.mp hgen
  rw [composeCanvas_height cfg img ext face hpad hF]
  have h15 : (0 : ℚ) ≤ effectiveFontSize cfg img.width * 1.5 := by
    have : (0 : ℚ) ≤ (1.5 : ℚ) := by norm_num
    exact mul_nonneg hF this
  simp only [goTrunc_eq_floor h15, topCaption_ne_empty_iff, bottomCaption_ne_empty_iff]
  ring

theorem claim1_canvas_height_witness :
    (0 : ℤ) ≤ cfgW1.Padding
    ∧ (0 : ℚ) ≤ effectiveFontSize cfgW1 imgW.width
    ∧ (Generate ⟨cfgW1, []⟩ imgW extW).1 = .ok (composeCanvas cfgW1 imgW extW goboldFaceW)
    ∧ (composeCanvas cfgW1 imgW extW goboldFaceW).height
        = (imgW.height : ℤ) + 2 * cfgW1.Padding
          + (if cfgW1.TopText ≠ "" then ⌊effectiveFontSize cfgW1 imgW.width * 1.5⌋ else 0)
          + (if cfgW1.BottomText ≠ "" then ⌊effectiveFontSize cfgW1 imgW.width * 1.5⌋ else 0) :=
  ⟨by decide, by decide, rfl,
    claim1_canvas_height cfgW1 imgW [] extW (composeCanvas cfgW1 imgW extW goboldFaceW)
      (by decide) (by decide) rfl⟩

/-- C2.  When both captions are empty, a canvas returned by `Generate`
has dimensions exactly `(W + 2·P, H + 2·P)`: no caption-height term is
added. -/
theorem claim2_empty_captions_dims (cfg : Config) (img : GoImage) (cache : FontCache)
    (ext : Ext) (c : Canvas)
    (hpad : 0 ≤ cfg.Padding)
    (htop : cfg.TopText = "")
    (hbot : cfg.BottomText = "")
    (hgen : (Generate ⟨cfg, cache⟩ img ext).1 = .ok c) :
    c.width = (img.width : ℤ) + 2 * cfg.Padding
    ∧ c.height = (img.height : ℤ) + 2 * cfg.Padding := by
  obtain ⟨face, cc, k, hl, rfl⟩ := generate_ok_iff.mp hgen
  have ht : ¬topCaption cfg ≠ "" := by
    simp [topCaption_ne_empty_iff, htop]
  have hb : ¬bottomCaption cfg ≠ "" := by
    simp [bottomCaption_ne_empty_iff, hbot]
  constructor
  · rw [composeCanvas_width cfg img ext face hpad]
    ring
  · rw [show (composeCanvas cfg img ext face).height
        = (imageRect 0 0 ((img.width : ℤ) + cfg.Padding * 2)
            ((img.height : ℤ) + cfg.Padding * 2 +
              ((if topCaption cfg ≠ "" then goTrunc (effectiveFontSize cfg img.width * 1.5) else 0) +
               (if bottomCaption cfg ≠ "" then goTrunc (effectiveFontSize cfg img.width * 1.5) else 0)))).dy
      from rfl]
    rw [if_neg ht, if_neg hb]
    rw [imageRect_dy (by positivity)]
    ring

theorem claim2_empty_captions_dims_witness :
    (0 : ℤ) ≤ cfgW2.Padding
    ∧ cfgW2.TopText = ""
    ∧ cfgW2.BottomText = ""
    ∧ (Generate ⟨cfgW2, []⟩ imgW extW).1 = .ok (composeCanvas cfgW2 imgW extW goboldFaceW)
    ∧ (composeCanvas cfgW2 imgW extW goboldFaceW).width = (imgW.width : ℤ) + 2 * cfgW2.Padding
    ∧ (composeCanvas cfgW2 imgW extW goboldFaceW).height = (imgW.height : ℤ) + 2 * cfgW2.Padding := by
  refine ⟨by decide, rfl, rfl, rfl, ?_⟩
  exact claim2_empty_captions_dims cfgW2 imgW [] extW
    (composeCanvas cfgW2 imgW extW goboldFaceW) (by decide) rfl rfl rfl

/-- With auto-sizing on, the source's two-branch clamp agrees with the
spec's `clamp(W/800, 0.5, 2.0)`, scaled by the base size 48. -/
theorem effectiveFontSize_eq_clamp (cfg : Config) (W : ℕ) (h : cfg.AutoFontSize = true) :
    effectiveFontSize cfg W = 48 * specClamp ((W : ℚ) / 800) 0.5 2.0 := by
  unfold effectiveFontSize specClamp
  rw [h]
  simp only [if_true]
  by_cases h1 : (W : ℚ) / 800 < 0.5
  · rw [if_pos h1, min_eq_right (le_of_lt (lt_trans h1 (by norm_num))),
      max_eq_left (le_of_lt h1)]
  · rw [if_neg h1]
    by_cases h2 : (W : ℚ) / 800 > 2.0
    · rw [if_pos h2, min_eq_left (le_of_lt h2), max_eq_right (by norm_num)]
    · rw [if_neg h2, min_eq_right (not_lt.mp h2), max_eq_right (not_lt.mp h1)]

/-- C3.  With `AutoFontSize` on, the effective font size is
`48 × clamp(W/800, 0.5, 2.0)`; width 400 gives 24, width 800 gives 48,
width 3200 gives 96 (clamped, not 192); and the size is monotonically
non-decreasing in the image width. -/
theorem claim3_auto_font_size (cfg : Config) (W W' : ℕ)
    (h : cfg.AutoFontSize = true) (hWW : W ≤ W') :
    effectiveFontSize cfg W = 48 * specClamp ((W : ℚ) / 800) 0.5 2.0
    ∧ effectiveFontSize cfg 400 = 24
    ∧ effectiveFontSize cfg 800 = 48
    ∧ effectiveFontSize cfg 3200 = 96
    ∧ effectiveFontSize cfg W ≤ effectiveFontSize cfg W' := by
  refine ⟨effectiveFontSize_eq_clamp cfg W h, ?_, ?_, ?_, ?_⟩
  · rw [effectiveFontSize_eq_clamp cfg 400 h]
    norm_num [specClamp]
  · rw [effectiveFontSize_eq_clamp cfg 800 h]
    norm_num [specClamp]
  · rw [effectiveFontSize_eq_clamp cfg 3200 h]
    norm_num [specClamp]
  · rw [effectiveFontSize_eq_clamp cfg W h, effectiveFontSize_eq_clamp cfg W' h]
    unfold specClamp
    have hc : ((W : ℚ)) / 800 ≤ ((W' : ℚ)) / 800 := by
      apply div_le_div_of_nonneg_right ?_ (by norm_num)
      · exact_mod_cast hWW
    have : min 2.0 ((W : ℚ) / 800) ≤ min 2.0 ((W' : ℚ) / 800) :=
      min_le_min (le_refl _) hc
    have : max 0.5 (min 2.0 ((W : ℚ) / 800)) ≤ max 0.5 (min 2.0 ((W' : ℚ) / 800)) :=
      max_le_max (le_refl _) this
    apply mul_le_mul_of_nonneg_left this (by norm_num)

theorem claim3_auto_font_size_witness :
    DefaultConfig.AutoFontSize = true
    ∧ effectiveFontSize DefaultConfig 400 = 24
    ∧ effectiveFontSize DefaultConfig 800 = 48
    ∧ effectiveFontSize DefaultConfig 3200 = 96
    ∧ effectiveFontSize DefaultConfig 400 ≤ effectiveFontSize DefaultConfig 800 := by
  have h := claim3_auto_font_size DefaultConfig 400 800 rfl (by decide)
  exact ⟨rfl, h.2.1, h.2.2.1, h.2.2.2.1, h.2.2.2.2⟩

/-- A successful `loadFont` determines the whole `Generate` result. -/
theorem generate_eq_of_loadFont_ok {cfg : Config} {cache : FontCache} {img : GoImage}
    {ext : Ext} {face : FontFace} {cache₂ : FontCache} {reads : ℕ}
    (h : loadFont cfg ext cache (effectiveFontSize cfg img.width)
      = (.ok face, cache₂, reads)) :
    Generate ⟨cfg, cache⟩ img ext = (.ok (composeCanvas cfg img ext face), cache₂, reads) := by
  unfold Generate
  dsimp only
  rw [h]

/-- A failed `loadFont` determines the whole `Generate` result: the
wrapped error and no canvas. -/
theorem generate_eq_of_loadFont_error {cfg : Config} {cache : FontCache} {img : GoImage}
    {ext : Ext} {e : FontError} {cache₂ : FontCache} {reads : ℕ}
    (h : loadFont cfg ext cache (effectiveFontSize cfg img.width)
      = (.error e, cache₂, reads)) :
    Generate ⟨cfg, cache⟩ img ext = (.error (.fontLoad e), cache₂, reads) := by
  unfold Generate
  dsimp only
  rw [h]

/-- The text passes of a composed canvas, in source (`goTrunc`) form:
top caption at the first baseline, bottom caption at the baseline
advanced by `int(fontSize*1.2)` only when a top caption was drawn. -/
theorem composeCanvas_textOps (cfg : Config) (img : GoImage) (ext : Ext) (face : FontFace) :
    (composeCanvas cfg img ext face).textOps =
      (if topCaption cfg ≠ "" then
        drawCenteredText cfg ext (composeCanvas cfg img ext face).width face (topCaption cfg)
          (cfg.Padding + (img.height : ℤ) + goTrunc (effectiveFontSize cfg img.width * 0.8))
      else [])
      ++ (if bottomCaption cfg ≠ "" then
        drawCenteredText cfg ext (composeCanvas cfg img ext face).width face (bottomCaption cfg)
          (if topCaption cfg ≠ "" then
            cfg.Padding + (img.height : ℤ) + goTrunc (effectiveFontSize cfg img.width * 0.8)
              + goTrunc (effectiveFontSize cfg img.width * 1.2)
          else cfg.Padding + (img.height : ℤ) + goTrunc (effectiveFontSize cfg img.width * 0.8))
      else []) := rfl

/-- C4.  The first caption baseline is `padding + imageHeight +
⌊F × 0.8⌋`; when a top caption is drawn the bottom caption's baseline is
the previous baseline plus `⌊F × 1.2⌋`; and the text passes (hence both
baselines) do not depend on the configured border thickness. -/
theorem claim4_baselines (cfg : Config) (img : GoImage) (cache : FontCache) (ext : Ext)
    (face : FontFace) (cache₂ : FontCache) (reads : ℕ) (c : Canvas) (b : ℤ)
    (hF : 0 ≤ effectiveFontSize cfg img.width)
    (hload : loadFont cfg ext cache (effectiveFontSize cfg img.width)
      = (.ok face, cache₂, reads))
    (hgen : (Generate ⟨cfg, cache⟩ img ext).1 = .ok c) :
    c.textOps =
      (if cfg.TopText ≠ "" then
        drawCenteredText cfg ext c.width face (topCaption cfg)
          (cfg.Padding + (img.height : ℤ) + ⌊effectiveFontSize cfg img.width * 0.8⌋)
      else [])
      ++ (if cfg.BottomText ≠ "" then
        drawCenteredText cfg ext c.width face (bottomCaption cfg)
          (cfg.Padding + (img.height : ℤ) + ⌊effectiveFontSize cfg img.width * 0.8⌋
            + (if cfg.TopText ≠ "" then ⌊effectiveFontSize cfg img.width * 1.2⌋ else 0))
      else [])
    ∧ (Generate ⟨{cfg with Border := b}, cache⟩ img ext).1.map Canvas.textOps
        = (Generate ⟨cfg, cache⟩ img ext).1.map Canvas.textOps := by
  have h08 : (0 : ℚ) ≤ effectiveFontSize cfg img.width * 0.8 := by
    have : (0 : ℚ) ≤ (0.8 : ℚ) := by norm_num
    exact mul_nonneg hF this
  have h12 : (0 : ℚ) ≤ effectiveFontSize cfg img.width * 1.2 := by
    have : (0 : ℚ) ≤ (1.2 : ℚ) := by norm_num
    exact mul_nonneg hF this
  obtain ⟨face', cc, k, hl', rfl⟩ := generate_ok_iff.mp hgen
  rw [hload] at hl'
  have hface : face = face' := by
    have := congrArg Prod.fst hl'
    simpa using this
  subst hface
  constructor
  · rw [composeCanvas_textOps cfg img ext face]
    simp only [goTrunc_eq_floor h08, goTrunc_eq_floor h12,
      topCaption_ne_empty_iff, bottomCaption_ne_empty_iff]
    by_cases htop : cfg.TopText ≠ "" <;> simp [htop]
  · have hlb : loadFont { cfg with Border := b } ext cache
        (effectiveFontSize { cfg with Border := b } img.width)
        = (.ok face, cache₂, reads) := hload
    rw [generate_eq_of_loadFont_ok hlb, generate_eq_of_loadFont_ok hload]
    rfl

theorem claim4_baselines_witness :
    (0 : ℚ) ≤ effectiveFontSize cfgW1 imgW.width
    ∧ loadFont cfgW1 extW [] (effectiveFontSize cfgW1 imgW.width) = (.ok goboldFaceW, [], 0)
    ∧ (Generate ⟨cfgW1, []⟩ imgW extW).1 = .ok (composeCanvas cfgW1 imgW extW goboldFaceW)
    ∧ (composeCanvas cfgW1 imgW extW goboldFaceW).textOps =
        (if cfgW1.TopText ≠ "" then
          drawCenteredText cfgW1 extW (composeCanvas cfgW1 imgW extW goboldFaceW).width
            goboldFaceW (topCaption cfgW1)
            (cfgW1.Padding + (imgW.height : ℤ) + ⌊effectiveFontSize cfgW1 imgW.width * 0.8⌋)
        else [])
        ++ (if cfgW1.BottomText ≠ "" then
          drawCenteredText cfgW1 extW (composeCanvas cfgW1 imgW extW goboldFaceW).width
            goboldFaceW (bottomCaption cfgW1)
            (cfgW1.Padding + (imgW.height : ℤ) + ⌊effectiveFontSize cfgW1 imgW.width * 0.8⌋
              + (if cfgW1.TopText ≠ "" then ⌊effectiveFontSize cfgW1 imgW.width * 1.2⌋ else 0))
        else [])
    ∧ (Generate ⟨{cfgW1 with Border := 3}, []⟩ imgW extW).1.map Canvas.textOps
        = (Generate ⟨cfgW1, []⟩ imgW extW).1.map Canvas.textOps := by
  have h := claim4_baselines cfgW1 imgW [] extW goboldFaceW [] 0
    (composeCanvas cfgW1 imgW extW goboldFaceW) 3 (by decide) rfl rfl
  exact ⟨by decide, rfl, rfl, h.1, h.2⟩

/-- In a duplicate-free list, a predicate satisfied by exactly one
member counts exactly one element. -/
theorem countP_eq_one_of_nodup {α : Type} (p : α → Bool) {l : List α} (hn : l.Nodup)
    (a : α) (ha : a ∈ l) (hp : ∀ x ∈ l, p x = true ↔ x = a) : l.countP p = 1 := by
  induction l with
  | nil => cases ha
  | cons b t ih =>
    have hbt : b ∉ t := (List.nodup_cons.mp hn).1
    have hnt : t.Nodup := (List.nodup_cons.mp hn).2
    rw [List.countP_cons]
    rcases List.mem_cons.mp ha with rfl | hat
    · have hpb : p a = true := (hp a (List.mem_cons_self a t)).mpr rfl
      have hzero : t.countP p = 0 := by
        rw [List.countP_eq_zero]
        intro x hx hpx
        exact hbt (((hp x (List.mem_cons_of_mem a hx)).mp hpx) ▸ hx)
      rw [hzero, hpb]
      simp
    · have hab : b ≠ a := fun h => hbt (h ▸ hat)
      have hpb : p b = false := by
        rcases Bool.eq_false_or_eq_true (p b) with h | h
        · exact absurd ((hp b (List.mem_cons_self b t)).mp h) hab
        · exact h
      have hone : t.countP p = 1 :=
        ih hnt hat (fun x hx => hp x (List.mem_cons_of_mem b hx))
      rw [hone, hpb]
      simp

/-- Counting a predicate and its Boolean negation covers a list. -/
theorem countP_add_countP_not {α : Type} (p : α → Bool) (l : List α) :
    l.countP p + l.countP (fun a => !(p a)) = l.length := by
  induction l with
  | nil => rfl
  | cons b t ih =>
    rw [List.countP_cons, List.countP_cons, List.length_cons]
    cases hb : p b <;> simp [hb] <;> omega

/-- C5.  For a non-empty caption and outline width `w ≥ 0`,
`drawCenteredText` is exactly the outline passes (in outline color, one
per offset pair) followed by the single fill pass at the centered
origin; the offset list has length `(2w+1)² − 1`, ranges over
`[−w,w] × [−w,w]` minus the center, and repeats no pair. -/
theorem claim5_outline_passes (cfg : Config) (ext : Ext) (canvasWidth : ℤ) (face : FontFace)
    (text : String) (y dx dy : ℤ)
    (htext : text ≠ "") (hw : 0 ≤ cfg.TextOutlineWidth) :
    drawCenteredText cfg ext canvasWidth face text y
      = (outlineOffsets cfg.TextOutlineWidth).map (fun p =>
          { color := cfg.TextOutlineColor
            x := goDiv (canvasWidth - ext.measureString face text) 2 + p.1
            y := y + p.2, text := text, face := face })
        ++ [{ color := cfg.TextColor
              x := goDiv (canvasWidth - ext.measureString face text) 2
              y := y, text := text, face := face }]
    ∧ ((outlineOffsets cfg.TextOutlineWidth).length : ℤ)
        = (2 * cfg.TextOutlineWidth + 1) ^ 2 - 1
    ∧ ((dx, dy) ∈ outlineOffsets cfg.TextOutlineWidth ↔
        (-cfg.TextOutlineWidth ≤ dx ∧ dx ≤ cfg.TextOutlineWidth ∧
         -cfg.TextOutlineWidth ≤ dy ∧ dy ≤ cfg.TextOutlineWidth ∧ ¬(dx = 0 ∧ dy = 0)))
    ∧ (outlineOffsets cfg.TextOutlineWidth).Nodup := by
  have hnodsq : ((intRange (-cfg.TextOutlineWidth) cfg.TextOutlineWidth)
      ×ˢ (intRange (-cfg.TextOutlineWidth) cfg.TextOutlineWidth)).Nodup :=
    (nodup_intRange _ _).product (nodup_intRange _ _)
  refine ⟨?_, ?_, ?_, ?_⟩
  · by_cases hpos : cfg.TextOutlineWidth > 0
    · simp only [drawCenteredText, if_neg htext, if_pos hpos]
    · have hz : cfg.TextOutlineWidth = 0 := le_antisymm (not_lt.mp hpos) hw
      simp only [drawCenteredText, if_neg htext, if_neg hpos, hz]
      rfl
  · have e1 : (outlineOffsets cfg.TextOutlineWidth).length
        = ((intRange (-cfg.TextOutlineWidth) cfg.TextOutlineWidth)
            ×ˢ (intRange (-cfg.TextOutlineWidth) cfg.TextOutlineWidth)).countP
          (fun p => !(p.1 == 0 && p.2 == 0)) :=
      (List.countP_eq_length_filter _ _).symm
    have e2 : ((intRange (-cfg.TextOutlineWidth) cfg.TextOutlineWidth)
        ×ˢ (intRange (-cfg.TextOutlineWidth) cfg.TextOutlineWidth)).countP
          (fun p => !(p.1 == 0 && p.2 == 0))
        + ((intRange (-cfg.TextOutlineWidth) cfg.TextOutlineWidth)
            ×ˢ (intRange (-cfg.TextOutlineWidth) cfg.TextOutlineWidth)).countP
          (fun p => !(!(p.1 == 0 && p.2 == 0)))
        = ((intRange (-cfg.TextOutlineWidth) cfg.TextOutlineWidth)
            ×ˢ (intRange (-cfg.TextOutlineWidth) cfg.TextOutlineWidth)).length :=
      countP_add_countP_not _ _
    have e3 : ((intRange (-cfg.TextOutlineWidth) cfg.TextOutlineWidth)
        ×ˢ (intRange (-cfg.TextOutlineWidth) cfg.TextOutlineWidth)).countP
          (fun p => !(!(p.1 == 0 && p.2 == 0))) = 1 := by
      apply countP_eq_one_of_nodup _ hnodsq ((0, 0) : ℤ × ℤ)
      · exact List.mem_product.mpr
          ⟨mem_intRange.mpr ⟨by omega, by omega⟩, mem_intRange.mpr ⟨by omega, by omega⟩⟩
      · intro x _
        cases x with
        | mk x1 x2 =>
          simp [Prod.ext_iff]
    have e4 : ((intRange (-cfg.TextOutlineWidth) cfg.TextOutlineWidth)
        ×ˢ (intRange (-cfg.TextOutlineWidth) cfg.TextOutlineWidth)).length
        = (2 * cfg.TextOutlineWidth + 1).toNat * (2 * cfg.TextOutlineWidth + 1).toNat := by
      rw [List.length_product, length_intRange]
      have : (cfg.TextOutlineWidth - -cfg.TextOutlineWidth + 1).toNat
          = (2 * cfg.TextOutlineWidth + 1).toNat := by omega
      rw [this]
    have hsum : (outlineOffsets cfg.TextOutlineWidth).length + 1
        = (2 * cfg.TextOutlineWidth + 1).toNat * (2 * cfg.TextOutlineWidth + 1).toNat := by
      rw [e1, ← e3, e2, e4]
    have hcast : (((2 * cfg.TextOutlineWidth + 1).toNat : ℤ))
        = 2 * cfg.TextOutlineWidth + 1 := Int.toNat_of_nonneg (by omega)
    have hz : ((outlineOffsets cfg.TextOutlineWidth).length : ℤ) + 1
        = (2 * cfg.TextOutlineWidth + 1) * (2 * cfg.TextOutlineWidth + 1) := by
      rw [← hcast]
      exact_mod_cast congrArg (Nat.cast : ℕ → ℤ) hsum
    rw [pow_two]
    linarith [hz]
  · simp only [outlineOffsets, List.mem_filter, List.mem_product, mem_intRange]
    simp only [Bool.not_eq_eq_eq_not, Bool.not_true, Bool.and_eq_false_imp, beq_iff_eq,
      Bool.not_eq_true, Bool.and_eq_true, beq_eq_false_iff_ne, ne_eq]
    constructor
    · rintro ⟨⟨⟨h1, h2⟩, h3, h4⟩, h5⟩
      refine ⟨h1, h2, h3, h4, ?_⟩
      intro h
      rcases h with ⟨rfl, rfl⟩
      simp at h5
    · rintro ⟨h1, h2, h3, h4, h5⟩
      refine ⟨⟨⟨h1, h2⟩, h3, h4⟩, ?_⟩
      by_cases hdx : dx = 0
      · subst hdx
        have : dy ≠ 0 := fun h => h5 ⟨rfl, h⟩
        simp [this]
      · simp [hdx]
  · exact List.Nodup.filter _ hnodsq

theorem claim5_outline_passes_witness :
    ("A" : String) ≠ ""
    ∧ (0 : ℤ) ≤ DefaultConfig.TextOutlineWidth
    ∧ drawCenteredText DefaultConfig extW 260 goboldFaceW "A" 150
      = (outlineOffsets DefaultConfig.TextOutlineWidth).map (fun p =>
          { color := DefaultConfig.TextOutlineColor
            x := goDiv (260 - extW.measureString goboldFaceW "A") 2 + p.1
            y := 150 + p.2, text := "A", face := goboldFaceW })
        ++ [{ color := DefaultConfig.TextColor
              x := goDiv (260 - extW.measureString goboldFaceW "A") 2
              y := 150, text := "A", face := goboldFaceW }]
    ∧ ((outlineOffsets DefaultConfig.TextOutlineWidth).length : ℤ)
        = (2 * DefaultConfig.TextOutlineWidth + 1) ^ 2 - 1
    ∧ ((1, 0) ∈ outlineOffsets DefaultConfig.TextOutlineWidth ↔
        (-DefaultConfig.TextOutlineWidth ≤ 1 ∧ 1 ≤ DefaultConfig.TextOutlineWidth ∧
         -DefaultConfig.TextOutlineWidth ≤ 0 ∧ 0 ≤ DefaultConfig.TextOutlineWidth ∧
         ¬((1 : ℤ) = 0 ∧ (0 : ℤ) = 0)))
    ∧ (outlineOffsets DefaultConfig.TextOutlineWidth).Nodup := by
  have h := claim5_outline_passes DefaultConfig extW 260 goboldFaceW "A" 150 1 0
    (by decide) (by decide)
  exact ⟨by decide, by decide, h.1, h.2.1, h.2.2.1, h.2.2.2⟩

/-- The cache a `Generate` call leaves behind is the cache its
`loadFont` step leaves behind. -/
theorem generate_cache_eq (cfg : Config) (cache : FontCache) (img : GoImage) (ext : Ext) :
    (Generate ⟨cfg, cache⟩ img ext).2.1
      = (loadFont cfg ext cache (effectiveFontSize cfg img.width)).2.1 := by
  unfold Generate
  dsimp only
  rcases h : loadFont cfg ext cache (effectiveFontSize cfg img.width) with ⟨r, c2, k⟩
  cases r <;> simp

/-- The result a `Generate` call returns is determined by its
`loadFont` step's result. -/
theorem generate_fst_eq (cfg : Config) (cache : FontCache) (img : GoImage) (ext : Ext) :
    (Generate ⟨cfg, cache⟩ img ext).1
      = (match (loadFont cfg ext cache (effectiveFontSize cfg img.width)).1 with
          | .error e => .error (.fontLoad e)
          | .ok face => .ok (composeCanvas cfg img ext face)) := by
  unfold Generate
  dsimp only
  rcases h : loadFont cfg ext cache (effectiveFontSize cfg img.width) with ⟨r, c2, k⟩
  cases r <;> simp

/-- With an empty `FontPath`, `loadFont` never writes the cache. -/
theorem loadFont_cache_of_path_empty {cfg : Config} (ext : Ext) (cache : FontCache)
    (size : ℚ) (h : cfg.FontPath = "") :
    (loadFont cfg ext cache size).2.1 = cache := by
  unfold loadFont finishLoad
  by_cases hD : cfg.FontData ≠ []
  · rw [if_pos hD]
    rcases hp : ext.parseFont cfg.FontData with _ | f
    · simp [hp]
    · rcases hn : ext.newFace f size with _ | face <;> simp [hp, hn, h]
  · rw [if_neg hD, if_neg (by simp [h])]
    rcases hp : ext.parseFont ext.goboldTTF with _ | f
    · simp [hp]
    · rcases hn : ext.newFace f size with _ | face <;> simp [hp, hn, h]

/-- When raw bytes are resolved while `FontPath` is non-empty, the
parsed raw-byte font is persisted under the sentinel key. -/
theorem loadFont_cache_raw_with_path {cfg : Config} (ext : Ext) (cache : FontCache)
    (size : ℚ) {f : ParsedFont}
    (hD : cfg.FontData ≠ []) (hP : cfg.FontPath ≠ "")
    (hp : ext.parseFont cfg.FontData = some f) :
    (loadFont cfg ext cache size).2.1 = cacheInsert cache "embedded_font_data" f := by
  unfold loadFont finishLoad
  rw [if_pos hD]
  rcases hn : ext.newFace f size with _ | face <;> simp [hp, hn, hP]

/-- A raw-byte font resolution never reads the cache: the returned
face (or error) is the same whatever the cache holds. -/
theorem loadFont_fst_raw_cache_independent {cfg : Config} (ext : Ext)
    (cache cache' : FontCache) (size : ℚ) (hD : cfg.FontData ≠ []) :
    (loadFont cfg ext cache size).1 = (loadFont cfg ext cache' size).1 := by
  unfold loadFont finishLoad
  rw [if_pos hD, if_pos hD]
  rcases hp : ext.parseFont cfg.FontData with _ | f
  · simp [hp]
  · rcases hn : ext.newFace f size with _ | face <;> simp [hp, hn]

/-- C6 fails on the code: a `Generate` call that resolves the raw-byte
(`FontData`) source while `FontPath` is also set (the state
`LoadFontFile` leaves behind) persists the raw-byte-parsed font in the
cache under the sentinel key `"embedded_font_data"`, so the cache does
contain an entry for that font afterwards. -/
theorem claim6_counterexample :
    cfgW6.FontData ≠ []
    ∧ (Generate ⟨cfgW6, []⟩ imgW extW).1
        = .ok (composeCanvas cfgW6 imgW extW ⟨⟨fontBytesW⟩, 48⟩)
    ∧ (Generate ⟨cfgW6, []⟩ imgW extW).2.1 = [("embedded_font_data", ⟨fontBytesW⟩)]
    ∧ cacheLookup (Generate ⟨cfgW6, []⟩ imgW extW).2.1 "embedded_font_data"
        = some ⟨fontBytesW⟩ :=
  ⟨by decide, rfl, rfl, rfl⟩

/-- C6 amended.  A `Generate` call with `FontPath` empty never writes
the cache (raw-byte and embedded-default sources included); a call
resolving raw bytes while `FontPath` is non-empty persists the parsed
raw-byte font under the sentinel key `"embedded_font_data"`; raw-byte
fonts are re-parsed on every call (the result never depends on the
cache); and `PreloadFont` only ever inserts under the preloaded path. -/
theorem claim6_amended (cfg : Config) (cache cache' : FontCache) (img : GoImage)
    (ext : Ext) (f : ParsedFont) (path : String) :
    (cfg.FontPath = "" → (Generate ⟨cfg, cache⟩ img ext).2.1 = cache)
    ∧ (cfg.FontData ≠ [] → cfg.FontPath ≠ "" → ext.parseFont cfg.FontData = some f →
        (Generate ⟨cfg, cache⟩ img ext).2.1 = cacheInsert cache "embedded_font_data" f)
    ∧ (cfg.FontData ≠ [] →
        (Generate ⟨cfg, cache⟩ img ext).1 = (Generate ⟨cfg, cache'⟩ img ext).1)
    ∧ (PreloadFont ⟨cfg, cache⟩ ext path).2
        = (match loadFontFromFile ext path with
            | .error _ => cache
            | .ok data =>
              match ext.parseFont data with
              | none => cache
              | some g => cacheInsert cache path g) := by
  refine ⟨?_, ?_, ?_, ?_⟩
  · intro h
    rw [generate_cache_eq]
    exact loadFont_cache_of_path_empty ext cache _ h
  · intro hD hP hp
    rw [generate_cache_eq]
    exact loadFont_cache_raw_with_path ext cache _ hD hP hp
  · intro hD
    rw [generate_fst_eq, generate_fst_eq,
      loadFont_fst_raw_cache_independent ext cache cache' _ hD]
  · unfold PreloadFont
    dsimp only
    rcases hl : loadFontFromFile ext path with e | data
    · rfl
    · rcases hp : ext.parseFont data with _ | g <;> simp [hp]

theorem claim6_amended_witness :
    (Generate ⟨cfgW2, []⟩ imgW extW).2.1 = []
    ∧ (Generate ⟨cfgW6, []⟩ imgW extW).2.1
        = cacheInsert [] "embedded_font_data" ⟨fontBytesW⟩
    ∧ (Generate ⟨cfgW6, []⟩ imgW extW).1 = (Generate ⟨cfgW6, [("x", fW)]⟩ imgW extW).1
    ∧ (PreloadFont ⟨cfgW2, []⟩ extW "f.ttf").2
        = (match loadFontFromFile extW "f.ttf" with
            | .error _ => ([] : FontCache)
            | .ok data =>
              match extW.parseFont data with
              | none => ([] : FontCache)
              | some g => cacheInsert [] "f.ttf" g) := by
  refine ⟨?_, ?_, ?_, ?_⟩
  · exact (claim6_amended cfgW2 [] [] imgW extW fW "f.ttf").1 rfl
  · exact (claim6_amended cfgW6 [] [] imgW extW ⟨fontBytesW⟩ "f.ttf").2.1
      (by decide) (by decide) rfl
  · exact (claim6_amended cfgW6 [] [("x", fW)] imgW extW fW "f.ttf").2.2.1 (by decide)
  · exact (claim6_amended cfgW2 [] [] imgW extW fW "f.ttf").2.2.2

/-- An uncached file-path font resolution that succeeds end to end:
one disk read, the parsed font cached under the path. -/
theorem loadFont_file_first {cfg : Config} {ext : Ext} {cache : FontCache} {size : ℚ}
    {bytes : List ℕ} {f : ParsedFont} {face : FontFace}
    (hD : cfg.FontData = []) (hP : cfg.FontPath ≠ "")
    (hmiss : cacheLookup cache cfg.FontPath = none)
    (hfile : loadFontFromFile ext cfg.FontPath = .ok bytes)
    (hp : ext.parseFont bytes = some f)
    (hn : ext.newFace f size = some face) :
    loadFont cfg ext cache size = (.ok face, cacheInsert cache cfg.FontPath f, 1) := by
  simp [loadFont, finishLoad, hD, hP, hmiss, hfile, hp, hn]

/-- A cache hit: no disk read, the cache untouched. -/
theorem loadFont_file_hit {cfg : Config} {ext : Ext} {cache : FontCache} {size : ℚ}
    {f : ParsedFont} {face : FontFace}
    (hD : cfg.FontData = []) (hP : cfg.FontPath ≠ "")
    (hhit : cacheLookup cache cfg.FontPath = some f)
    (hn : ext.newFace f size = some face) :
    loadFont cfg ext cache size = (.ok face, cache, 0) := by
  simp [loadFont, hD, hP, hhit, hn]

theorem cacheLookup_insert_self (cache : FontCache) (k : String) (f : ParsedFont) :
    cacheLookup (cacheInsert cache k f) k = some f := by
  simp [cacheLookup, cacheInsert]

/-- Once the path is cached, any number of further `Generate` calls
returns the same canvas without touching the disk or the cache. -/
theorem generateRuns_cached {cfg : Config} {img : GoImage} {ext : Ext} {f : ParsedFont}
    {face : FontFace} (m : ℕ) (cache₁ : FontCache)
    (hD : cfg.FontData = []) (hP : cfg.FontPath ≠ "")
    (hhit : cacheLookup cache₁ cfg.FontPath = some f)
    (hn : ext.newFace f (effectiveFontSize cfg img.width) = some face) :
    generateRuns m cfg img ext cache₁
      = (List.replicate m (.ok (composeCanvas cfg img ext face)), cache₁, 0) := by
  induction m with
  | zero => rfl
  | succ m ih =>
    have hgen : Generate ⟨cfg, cache₁⟩ img ext
        = (.ok (composeCanvas cfg img ext face), cache₁, 0) :=
      generate_eq_of_loadFont_ok (loadFont_file_hit hD hP hhit hn)
    simp only [generateRuns]
    rw [hgen]
    dsimp only
    rw [ih]
    simp [List.replicate_succ]

/-- C7 amended.  For `N ≥ 1` consecutive `Generate` calls with an
unchanged file-path configuration, *provided font resolution succeeds*
(the file loads, its bytes parse, face creation succeeds — equivalently
the first call returns a canvas), the font file is read from disk
exactly once, the parsed font is cached under the path after the first
call, and all `N` calls return the identical canvas. -/
theorem claim7_cache_idempotence (cfg : Config) (img : GoImage) (ext : Ext)
    (cache : FontCache) (bytes : List ℕ) (f : ParsedFont) (face : FontFace) (n : ℕ)
    (hD : cfg.FontData = []) (hP : cfg.FontPath ≠ "")
    (hmiss : cacheLookup cache cfg.FontPath = none)
    (hfile : loadFontFromFile ext cfg.FontPath = .ok bytes)
    (hp : ext.parseFont bytes = some f)
    (hn : ext.newFace f (effectiveFontSize cfg img.width) = some face)
    (hn1 : 1 ≤ n) :
    generateRuns n cfg img ext cache
      = (List.replicate n (.ok (composeCanvas cfg img ext face)),
         cacheInsert cache cfg.FontPath f, 1) := by
  obtain ⟨m, rfl⟩ : ∃ m, n = m + 1 := ⟨n - 1, by omega⟩
  have hfirst : Generate ⟨cfg, cache⟩ img ext
      = (.ok (composeCanvas cfg img ext face), cacheInsert cache cfg.FontPath f, 1) :=
    generate_eq_of_loadFont_ok (loadFont_file_first hD hP hmiss hfile hp hn)
  have hrest := generateRuns_cached m (cacheInsert cache cfg.FontPath f) hD hP
    (cacheLookup_insert_self cache cfg.FontPath f) hn
  simp only [generateRuns]
  rw [hfirst]
  dsimp only
  rw [hrest]
  simp [List.replicate_succ]

theorem claim7_cache_idempotence_witness :
    cfgW7.FontData = []
    ∧ cfgW7.FontPath ≠ ""
    ∧ cacheLookup [] cfgW7.FontPath = none
    ∧ loadFontFromFile extW cfgW7.FontPath = .ok fontBytesW
    ∧ extW.parseFont fontBytesW = some fW
    ∧ extW.newFace fW (effectiveFontSize cfgW7 imgW.width) = some faceW7
    ∧ generateRuns 2 cfgW7 imgW extW []
        = (List.replicate 2 (.ok (composeCanvas cfgW7 imgW extW faceW7)),
           cacheInsert [] cfgW7.FontPath fW, 1) :=
  ⟨rfl, by decide, rfl, rfl, rfl, rfl,
    claim7_cache_idempotence cfgW7 imgW extW [] fontBytesW fW faceW7 2
      rfl (by decide) rfl rfl rfl rfl (by decide)⟩

/-- C7 fails as universally stated: when the font file's bytes do not
parse as a font (real `opentype.Parse` rejects garbage that passes the
size checks), nothing is cached and every one of the `N` calls re-reads
the file — here two calls perform two disk reads and return errors, so
neither "read at most once" nor "all calls produce canvases" holds. -/
theorem claim7_counterexample :
    cfgW7.FontData = []
    ∧ cfgW7.FontPath = "f.ttf"
    ∧ (generateRuns 2 cfgW7 imgW extBadParse []).1
        = [.error (.fontLoad .parseFail), .error (.fontLoad .parseFail)]
    ∧ (generateRuns 2 cfgW7 imgW extBadParse []).2.2 = 2 :=
  ⟨rfl, rfl, rfl, rfl⟩

/-- C8.  A configuration with empty `FontData` whose `FontPath` names a
zero-byte file makes `Generate` fail with the (wrapped) file-empty
error after its single stat, returning no canvas and leaving the cache
unchanged. -/
theorem claim8_empty_font_file (cfg : Config) (img : GoImage) (cache : FontCache)
    (ext : Ext)
    (hD : cfg.FontData = []) (hP : cfg.FontPath ≠ "")
    (hmiss : cacheLookup cache cfg.FontPath = none)
    (hfs : ext.fs cfg.FontPath = some []) :
    Generate ⟨cfg, cache⟩ img ext = (.error (.fontLoad .fileEmpty), cache, 1) := by
  have hfile : loadFontFromFile ext cfg.FontPath = .error .fileEmpty := by
    simp [loadFontFromFile, hfs]
  have hload : loadFont cfg ext cache (effectiveFontSize cfg img.width)
      = (.error .fileEmpty, cache, 1) := by
    simp [loadFont, hD, hP, hmiss, hfile]
  exact generate_eq_of_loadFont_error hload

theorem claim8_empty_font_file_witness :
    cfgW8.FontData = []
    ∧ cfgW8.FontPath ≠ ""
    ∧ cacheLookup [] cfgW8.FontPath = none
    ∧ extW.fs cfgW8.FontPath = some []
    ∧ Generate ⟨cfgW8, []⟩ imgW extW = (.error (.fontLoad .fileEmpty), [], 1) :=
  ⟨rfl, by decide, rfl, rfl,
    claim8_empty_font_file cfgW8 imgW [] extW rfl (by decide) rfl rfl⟩

/-- Every render pass of `drawCenteredText` draws the caption string
it was given. -/
theorem drawCenteredText_text {cfg : Config} {ext : Ext} {w : ℤ} {face : FontFace}
    {t : String} {y : ℤ} {op : TextOp}
    (hop : op ∈ drawCenteredText cfg ext w face t y) : op.text = t := by
  unfold drawCenteredText at hop
  by_cases ht : t = ""
  · rw [if_pos ht] at hop
    cases hop
  · rw [if_neg ht] at hop
    dsimp only at hop
    rcases List.mem_append.mp hop with h | h
    · by_cases hw : cfg.TextOutlineWidth > 0
      · rw [if_pos hw] at h
        obtain ⟨p, _, rfl⟩ := List.mem_map.mp h
        rfl
      · rw [if_neg hw] at h
        cases h
    · rcases List.mem_singleton.mp h with rfl
      rfl

/-- C9.  `Generate` with `TextUppercase` on renders exactly what it
renders with `TextUppercase` off and pre-uppercased captions
(`toUpperSafe "hello" = "HELLO"` gives the spec's instance); and with
the transform off every render pass draws one of the configured caption
strings in its original case. -/
theorem claim9_uppercase_transform (cfg : Config) (img : GoImage) (cache : FontCache)
    (ext : Ext) (c : Canvas) :
    Generate ⟨{ cfg with TextUppercase := true }, cache⟩ img ext
      = Generate ⟨{ cfg with
          TextUppercase := false
          TopText := toUpperSafe cfg.TopText
          BottomText := toUpperSafe cfg.BottomText }, cache⟩ img ext
    ∧ toUpperSafe "hello" = "HELLO"
    ∧ (cfg.TextUppercase = false →
        (Generate ⟨cfg, cache⟩ img ext).1 = .ok c →
        c.textOps.all (fun op => op.text == cfg.TopText || op.text == cfg.BottomText)
          = true) := by
  refine ⟨rfl, by decide, ?_⟩
  intro hU hgen
  obtain ⟨face, cc, k, hl, rfl⟩ := generate_ok_iff.mp hgen
  rw [List.all_eq_true]
  intro op hop
  have htop : topCaption cfg = cfg.TopText := by
    simp [topCaption, hU]
  have hbot : bottomCaption cfg = cfg.BottomText := by
    simp [bottomCaption, hU]
  rw [composeCanvas_textOps] at hop
  rcases List.mem_append.mp hop with h | h
  · rcases Decidable.em (topCaption cfg ≠ "") with hc | hc
    · rw [if_pos hc] at h
      have := drawCenteredText_text h
      simp [this, htop]
    · rw [if_neg hc] at h
      cases h
  · rcases Decidable.em (bottomCaption cfg ≠ "") with hc | hc
    · rw [if_pos hc] at h
      have := drawCenteredText_text h
      simp [this, hbot]
    · rw [if_neg hc] at h
      cases h

theorem claim9_uppercase_transform_witness :
    Generate ⟨{ cfgW9 with TextUppercase := true }, []⟩ imgW extW
      = Generate ⟨{ cfgW9 with
          TextUppercase := false
          TopText := "HELLO"
          BottomText := "" }, []⟩ imgW extW
    ∧ toUpperSafe "hello" = "HELLO"
    ∧ (composeCanvas cfgW9b imgW extW goboldFaceW).textOps.all
        (fun op => op.text == cfgW9b.TopText || op.text == cfgW9b.BottomText) = true :=
  ⟨(claim9_uppercase_transform cfgW9 imgW [] extW
      (composeCanvas cfgW9 imgW extW goboldFaceW)).1,
   (claim9_uppercase_transform cfgW9 imgW [] extW
      (composeCanvas cfgW9 imgW extW goboldFaceW)).2.1,
   (claim9_uppercase_transform cfgW9b imgW [] extW
      (composeCanvas cfgW9b imgW extW goboldFaceW)).2.2 rfl rfl⟩

/-- C10.  `NewGenerator` on a nil configuration yields exactly
`DefaultConfig()` — font size 48, padding 80, border 10, outline width
6, uppercase on, auto-size on, black background, white border and text,
black outline — with an empty font cache. -/
theorem claim10_new_generator_defaults :
    NewGenerator none = { config := DefaultConfig, fontCache := [] }
    ∧ DefaultConfig.FontSize = 48
    ∧ DefaultConfig.Padding = 80
    ∧ DefaultConfig.Border = 10
    ∧ DefaultConfig.TextOutlineWidth = 6
    ∧ DefaultConfig.TextUppercase = true
    ∧ DefaultConfig.AutoFontSize = true
    ∧ DefaultConfig.BackgroundColor = ⟨0, 0, 0, 255⟩
    ∧ DefaultConfig.BorderColor = ⟨255, 255, 255, 255⟩
    ∧ DefaultConfig.TextColor = ⟨255, 255, 255, 255⟩
    ∧ DefaultConfig.TextOutlineColor = ⟨0, 0, 0, 255⟩
    ∧ (NewGenerator none).fontCache = [] :=
  ⟨rfl, rfl, rfl, rfl, rfl, rfl, rfl, rfl, rfl, rfl, rfl, rfl⟩

end Meme
